import Mathlib

/-!
Shallow embedding of the emotion-recommendation service, covering

* `EmotionAgent` in `apps/ai-service/fastapi-service/emotion_agent.py`
  (the three pipeline stages `_analyze_emotions`,
  `_generate_recommendations`, `_calculate_confidence`, and the
  driver `predict_preferences`), and
* `ConnectionManager` in `apps/ai-service/fastapi-service/websocket_main.py`
  (`connect`, `disconnect`, `send_personal_message`, `broadcast_to_user`,
  `get_stats`).

Python dictionaries are embedded as insertion-ordered association lists,
Python sets as duplicate-free lists, and floats as rationals.  The external
text-generation call together with the subsequent `json.loads` parse is an
external dependency; it is modelled by its observable outcome (`LLMOutcome`):
the call raised, the content was unparseable (`json.loads` or attribute
access raised), or a parsed payload whose fields are exactly the values the
two `dict.get(..., default)` calls produce.
-/

namespace EmotionService

/-- An insertion-ordered Python dict from emotion labels to float weights. -/
abbrev EmotionMap := List (String × ℚ)

/-- Value of `d.get(k)` on a Python dict `d`: the first (unique) entry for `k`. -/
def dictFind (l : EmotionMap) (k : String) : Option ℚ :=
  (l.find? (fun p => p.1 == k)).map Prod.snd

/-- Value of `d.get(k, dflt)` on a Python dict `d`. -/
def dictGet (l : EmotionMap) (k : String) (dflt : ℚ) : ℚ :=
  (dictFind l k).getD dflt

/-- Python `max(d, key=d.get)` over a dict: scans entries in insertion order,
replacing the current maximum only on a strictly larger weight, so the first
entry attaining the maximal weight wins.  Returns the winning entry. -/
def pyMax (l : EmotionMap) : Option (String × ℚ) :=
  match l with
  | [] => none
  | x :: xs => some (xs.foldl (fun cur y => if cur.2 < y.2 then y else cur) x)

/-- State threaded through the LangGraph pipeline (`AgentState` in
`emotion_agent.py`).  `previous_interactions` and `session_context` only feed
the prompt text, so their payloads are kept abstract as strings. -/
structure AgentState where
  user_id : String
  emotions : Option EmotionMap
  previous_interactions : Option (List String)
  session_context : Option (List (String × String))
  recommended_categories : Option (List String)
  reasoning : Option String
  confidence_score : Option ℚ
deriving Repr, DecidableEq

/-- The agent's fixed default category fallback, used both by the recommend
stage's parse-failure branch and by `predict_preferences`' top-level handler. -/
def defaultCategories : List String := ["Electronics", "Clothing", "Home & Kitchen"]

/-- Stage 1, `_analyze_emotions`: `if not state.emotions:` replaces an absent
or empty emotions dict by `{"neutral": 1.0}`. -/
def analyze_emotions (s : AgentState) : AgentState :=
  match s.emotions with
  | none => { s with emotions := some [("neutral", 1)] }
  | some [] => { s with emotions := some [("neutral", 1)] }
  | some _ => s

/-- Observable outcome of the external text-generation call followed by
`json.loads` and the two `dict.get` accesses in `_generate_recommendations`:
`failure` if `chain.ainvoke` raised (the exception propagates out of the
stage), `unparseable` if `json.loads(result)` or `parsed_result.get` raised,
and `parsed cats reasoning` carrying exactly the values
`parsed_result.get("recommended_categories", [])` and
`parsed_result.get("reasoning", "")` produce. -/
inductive LLMOutcome where
  | failure : LLMOutcome
  | unparseable : LLMOutcome
  | parsed (cats : List String) (reasoning : String) : LLMOutcome
deriving Repr, DecidableEq

/-- Stage 2, `_generate_recommendations`: a raising call propagates; a parse
failure is caught and replaced by the default categories and a generic
reasoning string; a parsed payload is stored as-is. -/
def generate_recommendations (o : LLMOutcome) (s : AgentState) :
    Except Unit AgentState :=
  match o with
  | .failure => .error ()
  | .unparseable =>
      .ok { s with
              recommended_categories := some defaultCategories,
              reasoning := some "Default recommendations based on general popularity." }
  | .parsed cats r =>
      .ok { s with recommended_categories := some cats, reasoning := some r }

/-- Per-emotion confidence factor of `_calculate_confidence`: `neutral` is
checked first, then membership in `["happy", "surprise"]`, else the default. -/
def emotionFactor (d : String) : ℚ :=
  if d = "neutral" then 7/10
  else if d = "happy" ∨ d = "surprise" then 9/10
  else 8/10

/-- Core of stage 3: `if state.emotions:` (truthy = present and non-empty)
takes the dominant emotion via `max(state.emotions, key=state.emotions.get)`,
re-reads its weight with `state.emotions.get(dominant_emotion, 0.5)` and
scales it by the per-class factor; otherwise yields the 0.5 default. -/
def confidenceOf (ems : Option EmotionMap) : ℚ :=
  match ems with
  | none => 1/2
  | some l =>
      if l.isEmpty then 1/2
      else
        match pyMax l with
        | some (d, _) => emotionFactor d * dictGet l d (1/2)
        | none => 1/2

/-- Stage 3, `_calculate_confidence`, as a state transformer. -/
def calculate_confidence (s : AgentState) : AgentState :=
  { s with confidence_score := some (confidenceOf s.emotions) }

/-- Python `x or 0.5` on an optional float: `None` and `0.0` are falsy. -/
def pyOrHalf (x : Option ℚ) : ℚ :=
  match x with
  | none => 1/2
  | some q => if q = 0 then 1/2 else q

/-- Python `x or []` on an optional list: `None` and the empty list are falsy. -/
def pyOrNil (x : Option (List String)) : List String :=
  match x with
  | none => []
  | some l => if l.isEmpty then [] else l

/-- Python `x or ""` on an optional string. -/
def pyOrEmpty (x : Option String) : String :=
  match x with
  | none => ""
  | some t => if t = "" then "" else t

/-- Result record returned by `predict_preferences`. -/
structure PredictResult where
  user_id : String
  recommended_categories : List String
  reasoning : String
  confidence_score : ℚ
deriving Repr, DecidableEq

/-- Driver `predict_preferences`: builds the initial state, runs the three
stages in order, and assembles the result record with Python `or` defaults;
any exception escaping the pipeline (here: a raising external call) is caught
by the top-level handler, which returns the fixed fallback record.  The
function is total: no input makes it raise to the caller. -/
def predict_preferences (uid : String) (emotions : Option EmotionMap)
    (prev : Option (List String)) (ctx : Option (List (String × String)))
    (o : LLMOutcome) : PredictResult :=
  let initial : AgentState :=
    { user_id := uid, emotions := emotions, previous_interactions := prev,
      session_context := ctx, recommended_categories := none,
      reasoning := none, confidence_score := none }
  let s1 := analyze_emotions initial
  match generate_recommendations o s1 with
  | .ok s2 =>
      let s3 := calculate_confidence s2
      { user_id := uid,
        recommended_categories := pyOrNil s3.recommended_categories,
        reasoning := pyOrEmpty s3.reasoning,
        confidence_score := pyOrHalf s3.confidence_score }
  | .error _ =>
      { user_id := uid,
        recommended_categories := defaultCategories,
        reasoning := "Default recommendations due to processing error.",
        confidence_score := 1/2 }

/-- Evaluation of the confidence factor at the label `happy`. -/
lemma emotionFactor_happy : emotionFactor "happy" = 9/10 := by
  rw [emotionFactor, if_neg (by decide), if_pos (by decide)]

/-- Evaluation of the confidence factor at the label `surprise`. -/
lemma emotionFactor_surprise : emotionFactor "surprise" = 9/10 := by
  rw [emotionFactor, if_neg (by decide), if_pos (by decide)]

/-- Evaluation of the confidence factor at the label `neutral`. -/
lemma emotionFactor_neutral : emotionFactor "neutral" = 7/10 := by
  rw [emotionFactor, if_pos (by decide)]

/-- Evaluation of the confidence factor at the label `sad`. -/
lemma emotionFactor_sad : emotionFactor "sad" = 8/10 := by
  rw [emotionFactor, if_neg (by decide), if_neg (by decide)]

end EmotionService

section Scratch
open EmotionService

example :
    (predict_preferences "u42" (some [("happy", 4/5), ("neutral", 1/5)])
      none none (.parsed ["Books"] "r")).confidence_score = 18/25 := by
  norm_num [predict_preferences, analyze_emotions, generate_recommendations,
    calculate_confidence, confidenceOf, pyMax, dictGet, dictFind, List.find?,
    pyOrHalf, emotionFactor_happy]

example :
    (predict_preferences "u" (some []) none none (.parsed [] "")).confidence_score
      = 7/10 := by
  norm_num [predict_preferences, analyze_emotions, generate_recommendations,
    calculate_confidence, confidenceOf, pyMax, dictGet, dictFind, List.find?,
    pyOrHalf, emotionFactor_neutral]

example :
    (predict_preferences "u" (some [("happy", 4/5)]) none none .failure).confidence_score
      = 1/2 := by
  norm_num [predict_preferences, analyze_emotions, generate_recommendations]

example :
    (predict_preferences "u" (some [("happy", 0)]) none none (.parsed [] "")).confidence_score
      = 1/2 := by
  norm_num [predict_preferences, analyze_emotions, generate_recommendations,
    calculate_confidence, confidenceOf, pyMax, dictGet, dictFind, List.find?,
    pyOrHalf, emotionFactor_happy]

end Scratch

namespace WSRegistry

/-- Python dict membership test `k in d` on an association list. -/
def hasKey {α : Type} (l : List (String × α)) (k : String) : Bool :=
  l.any (fun p => p.1 == k)

/-- Python dict assignment `d[k] = v`: overwrite the entry if the key is
present, otherwise append it (dicts preserve insertion order). -/
def dictSet {α : Type} (l : List (String × α)) (k : String) (v : α) :
    List (String × α) :=
  if hasKey l k then l.map (fun p => if p.1 == k then (p.1, v) else p)
  else l ++ [(k, v)]

/-- Python `del d[k]` on an association list. -/
def dictDel {α : Type} (l : List (String × α)) (k : String) :
    List (String × α) :=
  l.filter (fun p => !(p.1 == k))

/-- Python `s.add(x)` on a set embedded as a duplicate-free list. -/
def setAdd (s : List String) (x : String) : List String :=
  if x ∈ s then s else s ++ [x]

/-- Python `s.discard(x)`. -/
def setDiscard (s : List String) (x : String) : List String :=
  s.filter (fun c => !(c == x))

/-- The `ConnectionManager` state: `active_connections` maps `client_id` to a
live WebSocket (the socket object itself is opaque, kept as a token), and
`user_sessions` maps `user_id` to the set of that user's client ids. -/
structure ConnectionManager where
  active_connections : List (String × Nat)
  user_sessions : List (String × List String)
deriving Repr, DecidableEq

/-- The manager constructed at module load: both dicts empty. -/
def emptyManager : ConnectionManager := ⟨[], []⟩

/-- Session set currently registered for `uid` (empty when absent). -/
def sessionsOf (m : ConnectionManager) (uid : String) : List String :=
  ((m.user_sessions.find? (fun p => p.1 == uid)).map Prod.snd).getD []

/-- `ConnectionManager.connect`: store the socket under `client_id`, create
the user's session set if missing, and add `client_id` to it. -/
def connect (m : ConnectionManager) (ws : Nat) (cid uid : String) :
    ConnectionManager :=
  { active_connections := dictSet m.active_connections cid ws,
    user_sessions :=
      if hasKey m.user_sessions uid then
        m.user_sessions.map (fun p => if p.1 == uid then (p.1, setAdd p.2 cid) else p)
      else m.user_sessions ++ [(uid, [cid])] }

/-- Session-index update of `ConnectionManager.disconnect`: on the (unique)
entry for `uid`, discard `cid` from the set (`set.discard`) and drop the
entry entirely when the set becomes empty (`del self.user_sessions[uid]`);
every other user's entry is untouched. -/
def discardSessions (cid uid : String) :
    List (String × List String) → List (String × List String)
  | [] => []
  | p :: ps =>
      if p.1 == uid then
        if (setDiscard p.2 cid).isEmpty then discardSessions cid uid ps
        else (p.1, setDiscard p.2 cid) :: discardSessions cid uid ps
      else p :: discardSessions cid uid ps

/-- `ConnectionManager.disconnect`: drop the connection entry if present;
discard `client_id` from the user's session set and delete the set's entry
when it becomes empty. -/
def disconnect (m : ConnectionManager) (cid uid : String) : ConnectionManager :=
  { active_connections :=
      if hasKey m.active_connections cid then dictDel m.active_connections cid
      else m.active_connections,
    user_sessions :=
      if hasKey m.user_sessions uid then discardSessions cid uid m.user_sessions
      else m.user_sessions }

/-- Observable outcome of one `send_personal_message` call. -/
inductive SendResult where
  | notRegistered : SendResult
  | delivered : SendResult
  | failedRemoved : SendResult
deriving Repr, DecidableEq

/-- `ConnectionManager.send_personal_message`: a no-op for an unknown
`client_id`; otherwise the channel write either succeeds (`ok = true`) or
raises, in which case the handler deletes the broken connection entry
(re-checking membership first, as the code does) and swallows the error.
`ok` models whether the external `websocket.send_text` call succeeds. -/
def send_personal_message (ok : Bool) (m : ConnectionManager) (cid : String) :
    ConnectionManager × SendResult :=
  if hasKey m.active_connections cid then
    if ok then (m, .delivered)
    else
      ({ m with
          active_connections :=
            if hasKey m.active_connections cid then dictDel m.active_connections cid
            else m.active_connections },
        .failedRemoved)
  else (m, .notRegistered)

/-- `ConnectionManager.broadcast_to_user`: snapshot the user's session set
(`.copy()`), then issue one `send_personal_message` per member, collecting
each member's outcome; `asyncio.gather(..., return_exceptions=True)` lets
every delivery run regardless of the others' failures.  `ok` models, per
client, whether that client's channel write succeeds. -/
def broadcast_to_user (ok : String → Bool) (m : ConnectionManager)
    (uid : String) : ConnectionManager × List (String × SendResult) :=
  if hasKey m.user_sessions uid then
    (sessionsOf m uid).foldl
      (fun acc cid =>
        let r := send_personal_message (ok cid) acc.1 cid
        (r.1, acc.2 ++ [(cid, r.2)]))
      (m, [])
  else (m, [])

/-- Record returned by `ConnectionManager.get_stats`. -/
structure Stats where
  total_connections : Nat
  total_users : Nat
  connections_per_user : List (String × Nat)
deriving Repr, DecidableEq

/-- `ConnectionManager.get_stats`. -/
def get_stats (m : ConnectionManager) : Stats :=
  { total_connections := m.active_connections.length,
    total_users := m.user_sessions.length,
    connections_per_user := m.user_sessions.map (fun p => (p.1, p.2.length)) }

/-- One registry operation, with the environment's contribution recorded in
the operation itself: the socket token for `register`, and channel-write
success for `send`/`broadcast`. -/
inductive RegOp where
  | register (ws : Nat) (cid uid : String) : RegOp
  | unregister (cid uid : String) : RegOp
  | send (cid : String) (ok : Bool) : RegOp
  | broadcast (uid : String) (ok : String → Bool) : RegOp

/-- State transition of one registry operation. -/
def step (m : ConnectionManager) : RegOp → ConnectionManager
  | .register ws cid uid => connect m ws cid uid
  | .unregister cid uid => disconnect m cid uid
  | .send cid ok => (send_personal_message ok m cid).1
  | .broadcast uid ok => (broadcast_to_user ok m uid).1

/-- State after running a sequence of registry operations from start-up. -/
def runOps (ops : List RegOp) : ConnectionManager :=
  ops.foldl step emptyManager

/-- No user maps to an empty session set. -/
def noEmptySets (m : ConnectionManager) : Bool :=
  m.user_sessions.all (fun p => !p.2.isEmpty)

/-- Every client id in the user-session index has a live connection. -/
def allLive (m : ConnectionManager) : Bool :=
  m.user_sessions.all (fun p => p.2.all (fun cid => hasKey m.active_connections cid))

end WSRegistry

section ScratchW
open WSRegistry

example :
    runOps [.register 0 "c1" "u1", .send "c1" false] =
      ⟨[], [("u1", ["c1"])]⟩ := by decide

example : allLive (runOps [.register 0 "c1" "u1", .send "c1" false]) = false := by
  decide

example :
    (broadcast_to_user (fun c => c == "c1") ⟨[("c1", 0), ("c2", 1)], [("u1", ["c1", "c2"])]⟩ "u1").2
      = [("c1", .delivered), ("c2", .failedRemoved)] := by decide

end ScratchW

namespace EmotionService

/-- Combined effect of stage 1 on the emotions field alone: absent or empty
input is replaced by the single-entry neutral map. -/
def analyzedEms (ems : Option EmotionMap) : EmotionMap :=
  match ems with
  | none => [("neutral", 1)]
  | some [] => [("neutral", 1)]
  | some l => l

lemma analyze_emotions_eq (s : AgentState) :
    analyze_emotions s = { s with emotions := some (analyzedEms s.emotions) } := by
  rcases s with ⟨u, e, p, c, rc, rs, cs⟩
  rcases e with _ | ⟨_ | ⟨x, l⟩⟩ <;> rfl

lemma pyOrNil_some (l : List String) : pyOrNil (some l) = l := by
  cases l <;> rfl

lemma pyOrEmpty_some (t : String) : pyOrEmpty (some t) = t := by
  by_cases h : t = "" <;> simp [pyOrEmpty, h]

lemma predict_parsed_eq (uid : String) (ems : Option EmotionMap)
    (prev : Option (List String)) (ctx : Option (List (String × String)))
    (cats : List String) (r : String) :
    predict_preferences uid ems prev ctx (.parsed cats r) =
      { user_id := uid, recommended_categories := cats, reasoning := r,
        confidence_score := pyOrHalf (some (confidenceOf (some (analyzedEms ems)))) } := by
  unfold predict_preferences generate_recommendations
  simp [analyze_emotions_eq, calculate_confidence, pyOrNil_some, pyOrEmpty_some]

lemma predict_unparseable_eq (uid : String) (ems : Option EmotionMap)
    (prev : Option (List String)) (ctx : Option (List (String × String))) :
    predict_preferences uid ems prev ctx .unparseable =
      { user_id := uid, recommended_categories := defaultCategories,
        reasoning := "Default recommendations based on general popularity.",
        confidence_score := pyOrHalf (some (confidenceOf (some (analyzedEms ems)))) } := by
  unfold predict_preferences generate_recommendations
  simp [analyze_emotions_eq, calculate_confidence, pyOrNil_some, pyOrEmpty_some,
    defaultCategories]

lemma predict_failure_eq (uid : String) (ems : Option EmotionMap)
    (prev : Option (List String)) (ctx : Option (List (String × String))) :
    predict_preferences uid ems prev ctx .failure =
      { user_id := uid, recommended_categories := defaultCategories,
        reasoning := "Default recommendations due to processing error.",
        confidence_score := 1/2 } := by
  rfl

lemma confidenceOf_neutral1 : confidenceOf (some [("neutral", 1)]) = 7/10 := by
  norm_num [confidenceOf, pyMax, dictGet, dictFind, List.find?, emotionFactor_neutral]

end EmotionService

open EmotionService in
/-- C1 counterexample: with emotions `{"happy": 0.8}` supplied and the
external call raising, `predict_preferences` returns the constant fallback
confidence 0.5, not the stage-3 score 0.72 that those emotions yield. -/
theorem C1_counterexample_fallback_score :
    (predict_preferences "u" (some [("happy", 4/5)]) none none .failure).confidence_score
        = 1/2 ∧
    confidenceOf (some [("happy", 4/5)]) = 18/25 ∧
    ((1 : ℚ)/2) ≠ 18/25 := by
  refine ⟨by rw [predict_failure_eq], ?_, by norm_num⟩
  norm_num [confidenceOf, pyMax, dictGet, dictFind, List.find?, emotionFactor_happy]

open EmotionService in
/-- C1 (amended): `predict_preferences` is total — every input yields a
well-formed record carrying the caller's `user_id` — and any internal failure
that reaches the top-level handler is converted into the deterministic
fallback record whose `confidence_score` is the constant 0.5, irrespective of
the emotions that were supplied (only a parse failure handled inside the
recommend stage keeps the stage-3 score). -/
theorem C1_predict_total_constant_fallback (uid : String)
    (ems : Option EmotionMap) (prev : Option (List String))
    (ctx : Option (List (String × String))) (o : LLMOutcome) :
    (predict_preferences uid ems prev ctx o).user_id = uid ∧
    predict_preferences uid ems prev ctx .failure =
      { user_id := uid, recommended_categories := defaultCategories,
        reasoning := "Default recommendations due to processing error.",
        confidence_score := 1/2 } := by
  refine ⟨?_, predict_failure_eq uid ems prev ctx⟩
  cases o with
  | failure => rw [predict_failure_eq]
  | unparseable => rw [predict_unparseable_eq]
  | parsed cats r => rw [predict_parsed_eq]

open EmotionService in
/-- C3 counterexample: with an empty emotions mapping and a pipeline run that
completes (working external call), `predict_preferences` returns confidence
0.7 — stage 1 replaces the empty mapping by `{"neutral": 1.0}` and the
neutral factor applies — not the claimed 0.5. -/
theorem C3_counterexample_empty_is_07 :
    (predict_preferences "u" (some []) none none (.parsed [] "")).confidence_score
        = 7/10 ∧
    (predict_preferences "u" (some []) none none (.parsed [] "")).confidence_score
        ≠ 1/2 := by
  rw [predict_parsed_eq]
  constructor
  · show pyOrHalf (some (confidenceOf (some (analyzedEms (some []))))) = 7/10
    rw [show analyzedEms (some []) = [("neutral", 1)] from rfl, confidenceOf_neutral1]
    norm_num [pyOrHalf]
  · show pyOrHalf (some (confidenceOf (some (analyzedEms (some []))))) ≠ 1/2
    rw [show analyzedEms (some []) = [("neutral", 1)] from rfl, confidenceOf_neutral1]
    norm_num [pyOrHalf]

open EmotionService in
/-- C3 (amended): for absent or empty emotions, `predict_preferences` returns
confidence 0.7 whenever the run completes without the top-level handler
(stage 1 defaults the emotions to `{"neutral": 1.0}`, and the neutral factor
0.7 times weight 1.0 applies); 0.5 is returned only on the top-level failure
path. -/
theorem C3_empty_emotions_confidence (uid : String) (prev : Option (List String))
    (ctx : Option (List (String × String))) (cats : List String) (r : String) :
    ((predict_preferences uid none prev ctx (.parsed cats r)).confidence_score = 7/10 ∧
     (predict_preferences uid (some []) prev ctx (.parsed cats r)).confidence_score = 7/10) ∧
    ((predict_preferences uid none prev ctx .unparseable).confidence_score = 7/10 ∧
     (predict_preferences uid (some []) prev ctx .unparseable).confidence_score = 7/10) ∧
    ((predict_preferences uid none prev ctx .failure).confidence_score = 1/2 ∧
     (predict_preferences uid (some []) prev ctx .failure).confidence_score = 1/2) := by
  rw [predict_parsed_eq, predict_parsed_eq, predict_unparseable_eq,
    predict_unparseable_eq, predict_failure_eq, predict_failure_eq]
  rw [show analyzedEms none = [("neutral", 1)] from rfl,
    show analyzedEms (some []) = [("neutral", 1)] from rfl, confidenceOf_neutral1]
  norm_num [pyOrHalf]

open EmotionService in
/-- C5: whenever the external text-generation call fails or its content is
unparseable, `predict_preferences` substitutes exactly the default categories
`["Electronics", "Clothing", "Home & Kitchen"]` together with a non-empty
generic reasoning string; both substitution paths are plain total code and
raise nothing further. -/
theorem C5_failure_substitutes_defaults (uid : String) (ems : Option EmotionMap)
    (prev : Option (List String)) (ctx : Option (List (String × String))) :
    ((predict_preferences uid ems prev ctx .failure).recommended_categories
        = defaultCategories ∧
     (predict_preferences uid ems prev ctx .failure).reasoning ≠ "") ∧
    ((predict_preferences uid ems prev ctx .unparseable).recommended_categories
        = defaultCategories ∧
     (predict_preferences uid ems prev ctx .unparseable).reasoning ≠ "") := by
  rw [predict_failure_eq, predict_unparseable_eq]
  refine ⟨⟨rfl, by simp⟩, ⟨rfl, by simp⟩⟩

open EmotionService in
/-- C9 counterexample: the spec's own scenario — a working text-generation
stub returning the single category `"Books"` — makes `predict_preferences`
return a 1-element `recommended_categories`, outside the claimed 3–5 range. -/
theorem C9_counterexample_single_category :
    predict_preferences "u42" (some [("happy", 4/5), ("neutral", 1/5)]) none none
        (.parsed ["Books"] "r")
      = { user_id := "u42", recommended_categories := ["Books"], reasoning := "r",
          confidence_score := 18/25 } ∧
    ¬ (3 ≤ (predict_preferences "u42" (some [("happy", 4/5), ("neutral", 1/5)])
          none none (.parsed ["Books"] "r")).recommended_categories.length) := by
  rw [predict_parsed_eq]
  constructor
  · have : pyOrHalf (some (confidenceOf (some (analyzedEms
        (some [("happy", 4/5), ("neutral", 1/5)]))))) = 18/25 := by
      rw [show analyzedEms (some [("happy", 4/5), ("neutral", 1/5)])
            = [("happy", 4/5), ("neutral", 1/5)] from rfl]
      norm_num [confidenceOf, pyMax, dictGet, dictFind, List.find?,
        emotionFactor_happy, pyOrHalf]
    rw [this]
  · decide

open EmotionService in
/-- C9 (amended): on a completed run with a parsed response,
`recommended_categories` is exactly the list the response carried — the
prompt asks for 3–5 categories but the code enforces no bound on the list's
length. -/
theorem C9_categories_unconstrained (uid : String) (ems : Option EmotionMap)
    (prev : Option (List String)) (ctx : Option (List (String × String)))
    (cats : List String) (r : String) :
    (predict_preferences uid ems prev ctx (.parsed cats r)).recommended_categories
      = cats := by
  rw [predict_parsed_eq]

namespace EmotionService

lemma pyMax_fold_mem (x : String × ℚ) (xs : List (String × ℚ)) :
    xs.foldl (fun cur y => if cur.2 < y.2 then y else cur) x ∈ x :: xs := by
  induction xs generalizing x with
  | nil => simp
  | cons y ys ih =>
    simp only [List.foldl_cons]
    rcases List.mem_cons.1 (ih (if x.2 < y.2 then y else x)) with h1 | h1
    · rw [h1]
      split
      · exact List.mem_cons_of_mem _ (List.mem_cons_self _ _)
      · exact List.mem_cons_self _ _
    · exact List.mem_cons_of_mem _ (List.mem_cons_of_mem _ h1)

lemma pyMax_mem (l : EmotionMap) (p : String × ℚ) (h : pyMax l = some p) :
    p ∈ l := by
  cases l with
  | nil => simp [pyMax] at h
  | cons x xs =>
    have := pyMax_fold_mem x xs
    rwa [Option.some.inj h] at this

lemma dictFind_of_nodup (l : EmotionMap) (d : String) (w : ℚ)
    (hnd : (l.map Prod.fst).Nodup) (hmem : (d, w) ∈ l) : dictFind l d = some w := by
  induction l with
  | nil => simp at hmem
  | cons p ps ih =>
    rcases List.mem_cons.1 hmem with h | h
    · subst h
      simp [dictFind, List.find?]
    · have hd : d ∈ ps.map Prod.fst := List.mem_map.2 ⟨(d, w), h, rfl⟩
      have hne : (p.1 == d) = false := by
        refine beq_eq_false_iff_ne.2 (fun he => ?_)
        exact (List.nodup_cons.1 hnd).1 (he ▸ hd)
      have ht := ih (List.nodup_cons.1 hnd).2 h
      simpa [dictFind, List.find?, hne] using ht

lemma confidenceOf_pyMax (l : EmotionMap) (d : String) (w : ℚ)
    (hmax : pyMax l = some (d, w)) (hnd : (l.map Prod.fst).Nodup) :
    confidenceOf (some l) = emotionFactor d * w := by
  cases l with
  | nil => simp [pyMax] at hmax
  | cons x xs =>
    have hmem : (d, w) ∈ x :: xs := pyMax_mem _ _ hmax
    have hfind := dictFind_of_nodup _ _ _ hnd hmem
    simp [confidenceOf, hmax, dictGet, hfind]

lemma emotionFactor_ne_zero (d : String) : emotionFactor d ≠ 0 := by
  unfold emotionFactor
  split
  · norm_num
  · split <;> norm_num

end EmotionService

open EmotionService in
/-- C4 counterexample: a non-empty mapping whose maximum-weight entry is
`("happy", 0.0)` should, per the claim, give confidence `0.9 * 0.0 = 0`; the
pipeline computes that score, but `final_state.confidence_score or 0.5`
treats the falsy `0.0` as absent, so `predict_preferences` returns 0.5. -/
theorem C4_counterexample_zero_weight :
    pyMax [("happy", (0 : ℚ))] = some ("happy", 0) ∧
    (predict_preferences "u" (some [("happy", 0)]) none none
        (.parsed ["Books"] "r")).confidence_score = 1/2 ∧
    ((1 : ℚ)/2 ≠ 9/10 * 0) := by
  refine ⟨rfl, ?_, by norm_num⟩
  rw [predict_parsed_eq]
  show pyOrHalf (some (confidenceOf (some (analyzedEms (some [("happy", 0)]))))) = 1/2
  rw [show analyzedEms (some [("happy", (0 : ℚ))]) = [("happy", 0)] from rfl]
  norm_num [confidenceOf, pyMax, dictGet, dictFind, List.find?, emotionFactor_happy,
    pyOrHalf]

open EmotionService in
/-- C4 (amended): for a non-empty emotions dict whose dominant entry (the
first entry attaining the maximal weight, as `max(d, key=d.get)` picks it) is
`(d, w)` with `w ≠ 0`, a run that does not hit the top-level handler returns
confidence `factor(d) * w` with factor 0.7 for `neutral`, 0.9 for `happy` or
`surprise`, and 0.8 otherwise; when `w = 0` the computed score 0.0 is
replaced by 0.5 by the falsy-default in the result assembly. -/
theorem C4_confidence_is_factor_times_weight (uid : String)
    (prev : Option (List String)) (ctx : Option (List (String × String)))
    (ems : EmotionMap) (d : String) (w : ℚ) (o : LLMOutcome)
    (hmax : pyMax ems = some (d, w))
    (hnd : (ems.map Prod.fst).Nodup)
    (hw : w ≠ 0) (ho : o ≠ LLMOutcome.failure) :
    (predict_preferences uid (some ems) prev ctx o).confidence_score
      = emotionFactor d * w := by
  have hana : analyzedEms (some ems) = ems := by
    cases ems with
    | nil => simp [pyMax] at hmax
    | cons x xs => rfl
  have hconf := confidenceOf_pyMax ems d w hmax hnd
  have hprod : emotionFactor d * w ≠ 0 := mul_ne_zero (emotionFactor_ne_zero d) hw
  cases o with
  | failure => exact absurd rfl ho
  | unparseable =>
      rw [predict_unparseable_eq]
      show pyOrHalf (some (confidenceOf (some (analyzedEms (some ems)))))
        = emotionFactor d * w
      rw [hana, hconf]
      simp [pyOrHalf, hprod]
  | parsed cats r =>
      rw [predict_parsed_eq]
      show pyOrHalf (some (confidenceOf (some (analyzedEms (some ems)))))
        = emotionFactor d * w
      rw [hana, hconf]
      simp [pyOrHalf, hprod]

open EmotionService in
/-- C4 witness: emotions `{"happy": 0.8}` on a completed run give confidence
`factor("happy") * 0.8`. -/
theorem C4_confidence_is_factor_times_weight_witness :
    (predict_preferences "u" (some [("happy", 4/5)]) none none
        (.parsed [] "")).confidence_score = emotionFactor "happy" * (4/5) :=
  C4_confidence_is_factor_times_weight "u" none none [("happy", 4/5)] "happy" (4/5)
    (.parsed [] "") rfl (by decide) (by norm_num) (by decide)

open EmotionService in
/-- C10 counterexample: the two emotion dicts `{"happy": 0.5, "sad": 0.5}`
and `{"sad": 0.5, "happy": 0.5}` are equal as mappings (same value at every
key), yet on completed runs `predict_preferences` returns confidence 0.45
for the first and 0.40 for the second: `max` takes the first key attaining
the tied maximal weight, and the two labels carry different factors. -/
theorem C10_counterexample_tie_order :
    (∀ k : String, dictFind [("happy", (1 : ℚ)/2), ("sad", 1/2)] k
        = dictFind [("sad", (1 : ℚ)/2), ("happy", 1/2)] k) ∧
    (predict_preferences "uA" (some [("happy", 1/2), ("sad", 1/2)]) none none
        (.parsed ["Books"] "x")).confidence_score
      ≠ (predict_preferences "uB" (some [("sad", 1/2), ("happy", 1/2)]) none none
        (.parsed [] "y")).confidence_score := by
  constructor
  · intro k
    by_cases h1 : k = "happy"
    · subst h1; rfl
    · by_cases h2 : k = "sad"
      · subst h2; rfl
      · have e1 : (("happy" : String) == k) = false :=
          beq_eq_false_iff_ne.2 (fun he => h1 he.symm)
        have e2 : (("sad" : String) == k) = false :=
          beq_eq_false_iff_ne.2 (fun he => h2 he.symm)
        simp [dictFind, List.find?, e1, e2]
  · have ha : confidenceOf (some [("happy", (1 : ℚ)/2), ("sad", 1/2)]) = 9/20 := by
      norm_num [confidenceOf, pyMax, dictGet, dictFind, List.find?, emotionFactor_happy]
    have hb : confidenceOf (some [("sad", (1 : ℚ)/2), ("happy", 1/2)]) = 2/5 := by
      norm_num [confidenceOf, pyMax, dictGet, dictFind, List.find?, emotionFactor_sad]
    rw [predict_parsed_eq, predict_parsed_eq]
    show pyOrHalf (some (confidenceOf (some (analyzedEms
        (some [("happy", (1 : ℚ)/2), ("sad", 1/2)])))))
      ≠ pyOrHalf (some (confidenceOf (some (analyzedEms
        (some [("sad", (1 : ℚ)/2), ("happy", 1/2)])))))
    rw [show analyzedEms (some [("happy", (1 : ℚ)/2), ("sad", 1/2)])
          = [("happy", (1 : ℚ)/2), ("sad", 1/2)] from rfl,
        show analyzedEms (some [("sad", (1 : ℚ)/2), ("happy", 1/2)])
          = [("sad", (1 : ℚ)/2), ("happy", 1/2)] from rfl, ha, hb]
    norm_num [pyOrHalf]

open EmotionService in
/-- C10 (amended): two invocations that avoid the top-level handler and are
given the same emotions dict — same entries in the same insertion order —
return equal confidence scores, whatever the user ids, interaction
histories, session contexts, or external-response texts; equality merely as
unordered mappings is not enough when several labels tie for the maximum. -/
theorem C10_confidence_only_from_emotions (u1 u2 : String)
    (prev1 prev2 : Option (List String))
    (ctx1 ctx2 : Option (List (String × String)))
    (ems : Option EmotionMap) (o1 o2 : LLMOutcome)
    (h1 : o1 ≠ LLMOutcome.failure) (h2 : o2 ≠ LLMOutcome.failure) :
    (predict_preferences u1 ems prev1 ctx1 o1).confidence_score
      = (predict_preferences u2 ems prev2 ctx2 o2).confidence_score := by
  have key : ∀ (u : String) (prev : Option (List String))
      (ctx : Option (List (String × String))) (o : LLMOutcome),
      o ≠ LLMOutcome.failure →
      (predict_preferences u ems prev ctx o).confidence_score
        = pyOrHalf (some (confidenceOf (some (analyzedEms ems)))) := by
    intro u prev ctx o ho
    cases o with
    | failure => exact absurd rfl ho
    | unparseable => rw [predict_unparseable_eq]
    | parsed c r => rw [predict_parsed_eq]
  rw [key u1 prev1 ctx1 o1 h1, key u2 prev2 ctx2 o2 h2]

open EmotionService in
/-- C10 witness: two runs with the same emotions but different users,
contexts, and external responses agree on the confidence score. -/
theorem C10_confidence_only_from_emotions_witness :
    (predict_preferences "a" (some [("happy", 1/2)]) none none
        (.parsed ["Books"] "x")).confidence_score
      = (predict_preferences "b" (some [("happy", 1/2)]) (some ["i1"]) none
        .unparseable).confidence_score :=
  C10_confidence_only_from_emotions "a" "b" none (some ["i1"]) none none
    (some [("happy", 1/2)]) (.parsed ["Books"] "x") .unparseable
    (by decide) (by decide)

namespace WSRegistry

lemma hasKey_cons {α : Type} (p : String × α) (l : List (String × α)) (k : String) :
    hasKey (p :: l) k = ((p.1 == k) || hasKey l k) := by
  simp [hasKey, List.any_cons]

lemma hasKey_eq_find_isSome {α : Type} (l : List (String × α)) (k : String) :
    hasKey l k = (l.find? (fun p => p.1 == k)).isSome := by
  induction l with
  | nil => rfl
  | cons p ps ih =>
      by_cases hp : (p.1 == k) = true <;>
        simp [hasKey_cons, List.find?_cons, hp, ih]

lemma hasKey_dictDel_self {α : Type} (l : List (String × α)) (k : String) :
    hasKey (dictDel l k) k = false := by
  induction l with
  | nil => rfl
  | cons p ps ih =>
      by_cases hp : (p.1 == k) = true
      · simpa [dictDel, List.filter_cons, hp] using ih
      · simpa [dictDel, List.filter_cons, hp, hasKey_cons] using ih

lemma hasKey_dictDel_other {α : Type} (l : List (String × α)) (k k' : String)
    (hne : k' ≠ k) : hasKey (dictDel l k) k' = hasKey l k' := by
  induction l with
  | nil => rfl
  | cons p ps ih =>
      by_cases hp : (p.1 == k) = true
      · have hp' : (p.1 == k') = false := by
          refine beq_eq_false_iff_ne.2 (fun he => hne ?_)
          exact he ▸ (beq_iff_eq.1 hp)
        simp [dictDel, List.filter_cons, hp, hasKey_cons, hp'] at ih ⊢
        exact ih
      · simp [dictDel, List.filter_cons, hp, hasKey_cons] at ih ⊢
        rw [ih]

lemma dictDel_eq_self {α : Type} (l : List (String × α)) (k : String)
    (h : hasKey l k = false) : dictDel l k = l := by
  induction l with
  | nil => rfl
  | cons p ps ih =>
      rw [hasKey_cons, Bool.or_eq_false_iff] at h
      have ht := ih h.2
      simp only [dictDel] at ht ⊢
      rw [List.filter_cons, h.1]
      simpa using ht

lemma not_hasKey_of_nodup_head {α : Type} (p : String × α)
    (ps : List (String × α)) (hnd : ((p :: ps).map Prod.fst).Nodup) :
    hasKey ps p.1 = false := by
  cases hx : hasKey ps p.1
  · rfl
  · exfalso
    rw [hasKey_eq_find_isSome] at hx
    obtain ⟨q, hq⟩ := Option.isSome_iff_exists.1 hx
    have hqmem := List.find?_some hq
    have hqm := List.mem_of_find?_eq_some hq
    exact (List.nodup_cons.1 hnd).1
      (List.mem_map.2 ⟨q, hqm, beq_iff_eq.1 hqmem⟩)

lemma length_dictDel_nodup {α : Type} (l : List (String × α)) (k : String)
    (hnd : (l.map Prod.fst).Nodup) (h : hasKey l k = true) :
    (dictDel l k).length + 1 = l.length := by
  induction l with
  | nil => simp [hasKey] at h
  | cons p ps ih =>
      cases hp : (p.1 == k) with
      | true =>
          have hnot : hasKey ps k = false := by
            rw [← beq_iff_eq.1 hp]
            exact not_hasKey_of_nodup_head p ps hnd
          have h1 : dictDel (p :: ps) k = dictDel ps k := by
            simp only [dictDel, List.filter_cons, hp]
            simp
          rw [h1, dictDel_eq_self ps k hnot]
          simp
      | false =>
          rw [hasKey_cons, hp, Bool.false_or] at h
          have ht := ih (List.nodup_cons.1 hnd).2 h
          have h1 : dictDel (p :: ps) k = p :: dictDel ps k := by
            simp only [dictDel, List.filter_cons, hp]
            simp
          rw [h1]
          simpa using ht

end WSRegistry

open WSRegistry in
/-- C6: when a registered client's channel write fails, `send_personal_message`
completes without raising (it is a total function returning the
`failedRemoved` outcome), removes that connection's entry from the
connection map, and a subsequent `get_stats` call counts one connection
fewer, the failed client no longer among them. -/
theorem C6_failed_send_removes_connection (m : ConnectionManager)
    (cid : String) (h : hasKey m.active_connections cid = true)
    (hnd : (m.active_connections.map Prod.fst).Nodup) :
    (send_personal_message false m cid).2 = SendResult.failedRemoved ∧
    hasKey (send_personal_message false m cid).1.active_connections cid = false ∧
    (get_stats (send_personal_message false m cid).1).total_connections + 1
      = (get_stats m).total_connections := by
  have hsend : send_personal_message false m cid
      = ({ m with active_connections := dictDel m.active_connections cid },
          SendResult.failedRemoved) := by
    simp [send_personal_message, h]
  refine ⟨by rw [hsend], ?_, ?_⟩
  · rw [hsend]
    exact hasKey_dictDel_self m.active_connections cid
  · rw [hsend]
    simpa [get_stats] using length_dictDel_nodup m.active_connections cid hnd h

open WSRegistry in
/-- C6 witness: a one-connection registry whose only channel fails. -/
theorem C6_failed_send_removes_connection_witness :
    (send_personal_message false ⟨[("c1", 7)], [("u1", ["c1"])]⟩ "c1").2
        = SendResult.failedRemoved ∧
    hasKey (send_personal_message false ⟨[("c1", 7)], [("u1", ["c1"])]⟩ "c1").1.active_connections
        "c1" = false ∧
    (get_stats (send_personal_message false ⟨[("c1", 7)], [("u1", ["c1"])]⟩ "c1").1).total_connections
        + 1
      = (get_stats (⟨[("c1", 7)], [("u1", ["c1"])]⟩ : ConnectionManager)).total_connections :=
  C6_failed_send_removes_connection ⟨[("c1", 7)], [("u1", ["c1"])]⟩ "c1"
    (by decide) (by decide)

namespace WSRegistry

lemma find_disc_other (l : List (String × List String)) (uid cid v : String)
    (hv : v ≠ uid) :
    (discardSessions cid uid l).find? (fun p => p.1 == v)
      = l.find? (fun p => p.1 == v) := by
  induction l with
  | nil => rfl
  | cons p ps ih =>
      cases hp : (p.1 == uid) with
      | true =>
          have hpv : (p.1 == v) = false :=
            beq_eq_false_iff_ne.2 (fun he => hv (he ▸ beq_iff_eq.1 hp))
          cases he : (setDiscard p.2 cid).isEmpty with
          | true => simpa [discardSessions, hp, he, List.find?_cons, hpv] using ih
          | false => simpa [discardSessions, hp, he, List.find?_cons, hpv] using ih
      | false =>
          cases hv2 : (p.1 == v) with
          | true => simp [discardSessions, hp, List.find?_cons, hv2]
          | false => simpa [discardSessions, hp, List.find?_cons, hv2] using ih

lemma find_disc_none (ps : List (String × List String)) (uid cid : String)
    (hno : hasKey ps uid = false) :
    (discardSessions cid uid ps).find? (fun p => p.1 == uid) = none := by
  induction ps with
  | nil => rfl
  | cons q qs ih =>
      rw [hasKey_cons, Bool.or_eq_false_iff] at hno
      simpa [discardSessions, hno.1, List.find?_cons] using ih hno.2

lemma find_disc_self (l : List (String × List String)) (uid cid : String)
    (hnd : (l.map Prod.fst).Nodup) :
    (discardSessions cid uid l).find? (fun p => p.1 == uid)
      = (match l.find? (fun p => p.1 == uid) with
         | none => none
         | some p => if (setDiscard p.2 cid).isEmpty then none
                     else some (p.1, setDiscard p.2 cid)) := by
  induction l with
  | nil => rfl
  | cons p ps ih =>
      cases hp : (p.1 == uid) with
      | true =>
          have hno : hasKey ps uid = false := by
            rw [← beq_iff_eq.1 hp]
            exact not_hasKey_of_nodup_head p ps hnd
          cases he : (setDiscard p.2 cid).isEmpty with
          | true =>
              rw [show discardSessions cid uid (p :: ps) = discardSessions cid uid ps by
                simp [discardSessions, hp, he]]
              rw [find_disc_none ps uid cid hno]
              simp [List.find?_cons, hp, he]
          | false => simp [discardSessions, hp, he, List.find?_cons]
      | false =>
          simpa [discardSessions, hp, List.find?_cons] using
            ih (List.nodup_cons.1 hnd).2

end WSRegistry

open WSRegistry in
/-- C8: for a `client_id` with no live connection, `send_personal_message` is
a pure no-op (state unchanged, no error), and `disconnect` leaves the
connection map unchanged and touches the session index only by discarding
the client from the named user's set — other users' sets are untouched, and
the user's index entry survives exactly when the discarded set is still
non-empty. -/
theorem C8_unknown_client_noop (m : ConnectionManager) (cid uid : String)
    (ok : Bool) (h : hasKey m.active_connections cid = false)
    (hnd : (m.user_sessions.map Prod.fst).Nodup) :
    send_personal_message ok m cid = (m, SendResult.notRegistered) ∧
    (disconnect m cid uid).active_connections = m.active_connections ∧
    (∀ v, v ≠ uid → sessionsOf (disconnect m cid uid) v = sessionsOf m v) ∧
    sessionsOf (disconnect m cid uid) uid = setDiscard (sessionsOf m uid) cid ∧
    hasKey (disconnect m cid uid).user_sessions uid
      = (hasKey m.user_sessions uid && !(setDiscard (sessionsOf m uid) cid).isEmpty) := by
  cases hs : hasKey m.user_sessions uid with
  | false =>
      have hse : (disconnect m cid uid).user_sessions = m.user_sessions := by
        simp [disconnect, hs]
      have hfind : m.user_sessions.find? (fun p => p.1 == uid) = none := by
        cases hf : m.user_sessions.find? (fun p => p.1 == uid) with
        | none => rfl
        | some q =>
            have hiso := hasKey_eq_find_isSome m.user_sessions uid
            rw [hs, hf] at hiso
            simp at hiso
      refine ⟨by simp [send_personal_message, h], by simp [disconnect, h], ?_, ?_, ?_⟩
      · intro v hv
        simp [sessionsOf, hse]
      · simp [sessionsOf, hse, hfind, setDiscard]
      · rw [hse, hs]
        simp
  | true =>
      have hse : (disconnect m cid uid).user_sessions
          = discardSessions cid uid m.user_sessions := by
        simp [disconnect, hs]
      have hsome : (m.user_sessions.find? (fun p => p.1 == uid)).isSome := by
        rw [← hasKey_eq_find_isSome]
        exact hs
      obtain ⟨p, hp⟩ := Option.isSome_iff_exists.1 hsome
      have hsm : sessionsOf m uid = p.2 := by simp [sessionsOf, hp]
      refine ⟨by simp [send_personal_message, h], by simp [disconnect, h], ?_, ?_, ?_⟩
      · intro v hv
        simp only [sessionsOf, hse]
        rw [find_disc_other m.user_sessions uid cid v hv]
      · simp only [sessionsOf, hse]
        rw [find_disc_self m.user_sessions uid cid hnd, hp]
        cases he : (setDiscard p.2 cid).isEmpty with
        | true => simp [he, hsm, List.isEmpty_iff.1 he]
        | false => simp [he, hsm]
      · rw [hse, hsm]
        rw [show hasKey (discardSessions cid uid m.user_sessions) uid
              = ((discardSessions cid uid m.user_sessions).find?
                  (fun p => p.1 == uid)).isSome from hasKey_eq_find_isSome _ _]
        rw [find_disc_self m.user_sessions uid cid hnd, hp]
        cases he : (setDiscard p.2 cid).isEmpty with
        | true => simp [he]
        | false => simp [he]

open WSRegistry in
/-- C8 witness: a stale registry where `"c1"` is still indexed for `"u1"`
but has no live connection. -/
theorem C8_unknown_client_noop_witness :
    send_personal_message true ⟨[("c9", 1)], [("u1", ["c1"]), ("u2", ["c9"])]⟩ "c1"
        = (⟨[("c9", 1)], [("u1", ["c1"]), ("u2", ["c9"])]⟩, SendResult.notRegistered) ∧
    sessionsOf (disconnect ⟨[("c9", 1)], [("u1", ["c1"]), ("u2", ["c9"])]⟩ "c1" "u1") "u2"
        = sessionsOf ⟨[("c9", 1)], [("u1", ["c1"]), ("u2", ["c9"])]⟩ "u2" ∧
    sessionsOf (disconnect ⟨[("c9", 1)], [("u1", ["c1"]), ("u2", ["c9"])]⟩ "c1" "u1") "u1"
        = setDiscard (sessionsOf ⟨[("c9", 1)], [("u1", ["c1"]), ("u2", ["c9"])]⟩ "u1") "c1" := by
  obtain ⟨h1, h2, h3, h4, h5⟩ :=
    C8_unknown_client_noop ⟨[("c9", 1)], [("u1", ["c1"]), ("u2", ["c9"])]⟩ "c1" "u1" true
      (by decide) (by decide)
  exact ⟨h1, h3 "u2" (by decide), h4⟩

namespace WSRegistry

lemma sessionsOf_eq_nil (m : ConnectionManager) (uid : String)
    (hs : hasKey m.user_sessions uid = false) : sessionsOf m uid = [] := by
  cases hf : m.user_sessions.find? (fun p => p.1 == uid) with
  | none => simp [sessionsOf, hf]
  | some q =>
      have hiso := hasKey_eq_find_isSome m.user_sessions uid
      rw [hs, hf] at hiso
      simp at hiso

lemma send_preserves_sessions (ok : Bool) (m : ConnectionManager) (cid : String) :
    (send_personal_message ok m cid).1.user_sessions = m.user_sessions := by
  cases hk : hasKey m.active_connections cid <;> cases ok <;>
    simp [send_personal_message, hk]

lemma hasKey_send_other (ok : Bool) (m : ConnectionManager) (cid c : String)
    (hne : c ≠ cid) :
    hasKey (send_personal_message ok m cid).1.active_connections c
      = hasKey m.active_connections c := by
  cases hk : hasKey m.active_connections cid <;> cases ok <;>
    simp [send_personal_message, hk,
      hasKey_dictDel_other m.active_connections cid c hne]

lemma broadcast_fold (m : ConnectionManager) (ok : String → Bool) :
    ∀ (l : List String) (mc : ConnectionManager) (acc : List (String × SendResult)),
      l.Nodup →
      (∀ c ∈ l, hasKey mc.active_connections c = hasKey m.active_connections c) →
      (l.foldl (fun acc cid =>
          let r := send_personal_message (ok cid) acc.1 cid
          (r.1, acc.2 ++ [(cid, r.2)])) (mc, acc)).2
        = acc ++ l.map (fun cid =>
            (cid, if hasKey m.active_connections cid then
                    (if ok cid then SendResult.delivered else SendResult.failedRemoved)
                  else SendResult.notRegistered)) := by
  intro l
  induction l with
  | nil =>
      intro mc acc _ _
      simp
  | cons c cs ih =>
      intro mc acc hnd hag
      have hc := hag c (List.mem_cons_self c cs)
      have hres : (send_personal_message (ok c) mc c).2
          = (if hasKey m.active_connections c then
              (if ok c then SendResult.delivered else SendResult.failedRemoved)
             else SendResult.notRegistered) := by
        cases hk : hasKey m.active_connections c <;> cases hok : ok c <;>
          simp [send_personal_message, hc, hk, hok]
      have hagree : ∀ c' ∈ cs,
          hasKey (send_personal_message (ok c) mc c).1.active_connections c'
            = hasKey m.active_connections c' := by
        intro c' hc'
        have hne : c' ≠ c := fun he => (List.nodup_cons.1 hnd).1 (he ▸ hc')
        rw [hasKey_send_other (ok c) mc c c' hne]
        exact hag c' (List.mem_cons_of_mem _ hc')
      simp only [List.foldl_cons, List.map_cons]
      rw [ih (send_personal_message (ok c) mc c).1
          (acc ++ [(c, (send_personal_message (ok c) mc c).2)])
          (List.nodup_cons.1 hnd).2 hagree]
      rw [hres]
      simp

end WSRegistry

open WSRegistry in
/-- C7: `broadcast_to_user` issues exactly one delivery attempt per client in
the snapshot of the user's session set taken at call time, and each client's
outcome is a function only of that client's own registration and own channel
(`ok cid`) — a failing delivery to one client never changes another client's
outcome. -/
theorem C7_broadcast_once_independent (ok : String → Bool)
    (m : ConnectionManager) (uid : String) (hnd : (sessionsOf m uid).Nodup) :
    (broadcast_to_user ok m uid).2
      = (sessionsOf m uid).map (fun cid =>
          (cid, if hasKey m.active_connections cid then
                  (if ok cid then SendResult.delivered else SendResult.failedRemoved)
                else SendResult.notRegistered)) := by
  cases hs : hasKey m.user_sessions uid with
  | false =>
      rw [sessionsOf_eq_nil m uid hs] at *
      simp [broadcast_to_user, hs]
  | true =>
      simp only [broadcast_to_user, hs, if_true]
      rw [broadcast_fold m ok (sessionsOf m uid) m [] hnd (fun _ _ => rfl)]
      simp

open WSRegistry in
/-- C7 witness: a two-client session where `"c1"`'s channel works and
`"c2"`'s fails — both get exactly one attempt, with independent outcomes. -/
theorem C7_broadcast_once_independent_witness :
    (broadcast_to_user (fun c => c == "c1")
        ⟨[("c1", 0), ("c2", 1)], [("u1", ["c1", "c2"])]⟩ "u1").2
      = [("c1", SendResult.delivered), ("c2", SendResult.failedRemoved)] := by
  rw [C7_broadcast_once_independent (fun c => c == "c1")
    ⟨[("c1", 0), ("c2", 1)], [("u1", ["c1", "c2"])]⟩ "u1" (by decide)]
  decide

namespace WSRegistry

lemma setAdd_isEmpty_false (s : List String) (x : String) :
    (setAdd s x).isEmpty = false := by
  by_cases h : x ∈ s <;> cases s <;> simp_all [setAdd]

lemma mem_setAdd {s : List String} {x c : String} (h : c ∈ setAdd s x) :
    c ∈ s ∨ c = x := by
  by_cases hx : x ∈ s <;> simp_all [setAdd]

lemma mem_setDiscard {s : List String} {x c : String} :
    c ∈ setDiscard s x ↔ (c ∈ s ∧ c ≠ x) := by
  simp [setDiscard, List.mem_filter]

lemma hasKey_map_keys {α : Type} (l : List (String × α)) (f : String × α → String × α)
    (hf : ∀ p, (f p).1 = p.1) (c : String) : hasKey (l.map f) c = hasKey l c := by
  induction l with
  | nil => rfl
  | cons p ps ih => simp [List.map_cons, hasKey_cons, hf, ih]

lemma hasKey_dictSet_self {α : Type} (l : List (String × α)) (k : String) (v : α) :
    hasKey (dictSet l k v) k = true := by
  cases hk : hasKey l k with
  | true =>
      rw [dictSet, if_pos hk, hasKey_map_keys]
      · exact hk
      · intro p
        by_cases hp : (p.1 == k) = true <;> simp [hp]
  | false =>
      rw [dictSet, if_neg (by rw [hk]; exact Bool.false_ne_true)]
      simp [hasKey, List.any_append]

lemma hasKey_dictSet_mono {α : Type} (l : List (String × α)) (k : String) (v : α)
    (c : String) (h : hasKey l c = true) : hasKey (dictSet l k v) c = true := by
  cases hk : hasKey l k with
  | true =>
      rw [dictSet, if_pos hk, hasKey_map_keys]
      · exact h
      · intro p
        by_cases hp : (p.1 == k) = true <;> simp [hp]
  | false =>
      rw [dictSet, if_neg (by rw [hk]; exact Bool.false_ne_true)]
      simp [hasKey, List.any_append]
      rw [hasKey] at h
      simp at h
      exact Or.inl h

lemma send_ok_state (m : ConnectionManager) (cid : String) :
    (send_personal_message true m cid).1 = m := by
  cases hk : hasKey m.active_connections cid <;> simp [send_personal_message, hk]

lemma fold_preserves_sessions (ok : String → Bool) :
    ∀ (l : List String) (mc : ConnectionManager) (acc : List (String × SendResult)),
      ((l.foldl (fun acc cid =>
          let r := send_personal_message (ok cid) acc.1 cid
          (r.1, acc.2 ++ [(cid, r.2)])) (mc, acc)).1).user_sessions
        = mc.user_sessions := by
  intro l
  induction l with
  | nil => intro mc acc; rfl
  | cons c cs ih =>
      intro mc acc
      simp only [List.foldl_cons]
      rw [ih (send_personal_message (ok c) mc c).1
          (acc ++ [(c, (send_personal_message (ok c) mc c).2)])]
      exact send_preserves_sessions (ok c) mc c

lemma broadcast_preserves_sessions (ok : String → Bool) (m : ConnectionManager)
    (uid : String) :
    ((broadcast_to_user ok m uid).1).user_sessions = m.user_sessions := by
  cases hs : hasKey m.user_sessions uid with
  | true =>
      simp only [broadcast_to_user, hs, if_true]
      exact fold_preserves_sessions ok (sessionsOf m uid) m []
  | false =>
      simp [broadcast_to_user, hs]

lemma fold_benign_state (ok : String → Bool) :
    ∀ (l : List String) (mc : ConnectionManager) (acc : List (String × SendResult)),
      (∀ c ∈ l, ok c = true) →
      ((l.foldl (fun acc cid =>
          let r := send_personal_message (ok cid) acc.1 cid
          (r.1, acc.2 ++ [(cid, r.2)])) (mc, acc)).1) = mc := by
  intro l
  induction l with
  | nil => intro mc acc _; rfl
  | cons c cs ih =>
      intro mc acc hall
      simp only [List.foldl_cons]
      have hc : ok c = true := hall c (List.mem_cons_self c cs)
      rw [ih (send_personal_message (ok c) mc c).1
          (acc ++ [(c, (send_personal_message (ok c) mc c).2)])
          (fun c' hc' => hall c' (List.mem_cons_of_mem _ hc'))]
      rw [hc, send_ok_state]

lemma broadcast_benign_state (ok : String → Bool) (m : ConnectionManager)
    (uid : String) (hb : ∀ c ∈ sessionsOf m uid, ok c = true) :
    (broadcast_to_user ok m uid).1 = m := by
  cases hs : hasKey m.user_sessions uid with
  | true =>
      simp only [broadcast_to_user, hs, if_true]
      exact fold_benign_state ok (sessionsOf m uid) m [] hb
  | false =>
      simp [broadcast_to_user, hs]

end WSRegistry

namespace WSRegistry

lemma noEmptySets_congr (m1 m2 : ConnectionManager)
    (h : m1.user_sessions = m2.user_sessions) :
    noEmptySets m1 = noEmptySets m2 := by
  simp [noEmptySets, h]

lemma noEmpty_connect (m : ConnectionManager) (ws : Nat) (cid uid : String)
    (hinv : noEmptySets m = true) : noEmptySets (connect m ws cid uid) = true := by
  simp only [noEmptySets, List.all_eq_true] at hinv ⊢
  cases hs : hasKey m.user_sessions uid with
  | true =>
      intro p' hp'
      simp only [connect, hs, if_true] at hp'
      obtain ⟨p, hp, rfl⟩ := List.mem_map.1 hp'
      by_cases hpu : (p.1 == uid) = true
      · simp [hpu, setAdd_isEmpty_false]
      · simp only [hpu]
        simpa using hinv p hp
  | false =>
      intro p' hp'
      simp only [connect, hs, if_false] at hp'
      rcases List.mem_append.1 hp' with h | h
      · exact hinv p' h
      · simp at h
        subst h
        simp
  
lemma noEmpty_discardSessions (cid uid : String)
    (l : List (String × List String))
    (hinv : (l.all fun p => !p.2.isEmpty) = true) :
    ((discardSessions cid uid l).all fun p => !p.2.isEmpty) = true := by
  induction l with
  | nil => rfl
  | cons p ps ih =>
      rw [List.all_cons, Bool.and_eq_true] at hinv
      cases hp : (p.1 == uid) with
      | true =>
          cases he : (setDiscard p.2 cid).isEmpty with
          | true => simpa [discardSessions, hp, he] using ih hinv.2
          | false => simpa [discardSessions, hp, he] using ih hinv.2
      | false => simpa [discardSessions, hp, hinv.1] using ih hinv.2

lemma noEmpty_disconnect (m : ConnectionManager) (cid uid : String)
    (hinv : noEmptySets m = true) : noEmptySets (disconnect m cid uid) = true := by
  cases hs : hasKey m.user_sessions uid with
  | true =>
      have : (disconnect m cid uid).user_sessions
          = discardSessions cid uid m.user_sessions := by simp [disconnect, hs]
      rw [noEmptySets, this]
      exact noEmpty_discardSessions cid uid m.user_sessions hinv
  | false =>
      have : (disconnect m cid uid).user_sessions = m.user_sessions := by
        simp [disconnect, hs]
      rw [noEmptySets, this]
      exact hinv

lemma noEmpty_step (m : ConnectionManager) (op : RegOp)
    (hinv : noEmptySets m = true) : noEmptySets (step m op) = true := by
  cases op with
  | register ws cid uid => exact noEmpty_connect m ws cid uid hinv
  | unregister cid uid => exact noEmpty_disconnect m cid uid hinv
  | send cid ok =>
      show noEmptySets (send_personal_message ok m cid).1 = true
      rw [noEmptySets_congr _ m (send_preserves_sessions ok m cid)]
      exact hinv
  | broadcast uid ok =>
      show noEmptySets (broadcast_to_user ok m uid).1 = true
      rw [noEmptySets_congr _ m (broadcast_preserves_sessions ok m uid)]
      exact hinv

/-- Proviso under which one registry operation keeps the full liveness
invariant: `unregister` must name the only user the client is indexed under,
and channel writes must succeed (a failing write is exactly what detaches
the connection map from the session index). -/
def benignOp (m : ConnectionManager) : RegOp → Prop
  | .register _ _ _ => True
  | .unregister cid uid => ∀ p ∈ m.user_sessions, cid ∈ p.2 → p.1 = uid
  | .send _ ok => ok = true
  | .broadcast uid ok => ∀ c ∈ sessionsOf m uid, ok c = true

/-- The proviso of `benignOp`, threaded along a whole operation sequence. -/
def benignTrace : ConnectionManager → List RegOp → Prop
  | _, [] => True
  | m, op :: rest => benignOp m op ∧ benignTrace (step m op) rest

end WSRegistry

namespace WSRegistry

lemma mem_discardSessions {cid uid : String} {l : List (String × List String)}
    {q : String × List String} (h : q ∈ discardSessions cid uid l) :
    ∃ p ∈ l, ((p.1 == uid) = false ∧ q = p) ∨
      ((p.1 == uid) = true ∧ q = (p.1, setDiscard p.2 cid)) := by
  induction l with
  | nil => simp [discardSessions] at h
  | cons p ps ih =>
      cases hp : (p.1 == uid) with
      | true =>
          cases he : (setDiscard p.2 cid).isEmpty with
          | true =>
              rw [show discardSessions cid uid (p :: ps)
                    = discardSessions cid uid ps by simp [discardSessions, hp, he]] at h
              obtain ⟨p', hm, hcase⟩ := ih h
              exact ⟨p', List.mem_cons_of_mem _ hm, hcase⟩
          | false =>
              rw [show discardSessions cid uid (p :: ps)
                    = (p.1, setDiscard p.2 cid) :: discardSessions cid uid ps by
                  simp [discardSessions, hp, he]] at h
              rcases List.mem_cons.1 h with h1 | h1
              · exact ⟨p, List.mem_cons_self _ _, Or.inr ⟨hp, h1⟩⟩
              · obtain ⟨p', hm, hcase⟩ := ih h1
                exact ⟨p', List.mem_cons_of_mem _ hm, hcase⟩
      | false =>
          rw [show discardSessions cid uid (p :: ps)
                = p :: discardSessions cid uid ps by simp [discardSessions, hp]] at h
          rcases List.mem_cons.1 h with h1 | h1
          · exact ⟨p, List.mem_cons_self _ _, Or.inl ⟨hp, h1⟩⟩
          · obtain ⟨p', hm, hcase⟩ := ih h1
            exact ⟨p', List.mem_cons_of_mem _ hm, hcase⟩

lemma allLive_register (m : ConnectionManager) (ws : Nat) (cid uid : String)
    (hinv : allLive m = true) : allLive (connect m ws cid uid) = true := by
  simp only [allLive, List.all_eq_true] at hinv ⊢
  intro q hq c hc
  show hasKey (dictSet m.active_connections cid ws) c = true
  have hses : (connect m ws cid uid).user_sessions
      = (if hasKey m.user_sessions uid then
          m.user_sessions.map (fun p => if p.1 == uid then (p.1, setAdd p.2 cid) else p)
         else m.user_sessions ++ [(uid, [cid])]) := rfl
  rw [hses] at hq
  cases hs : hasKey m.user_sessions uid with
  | true =>
      rw [if_pos hs] at hq
      obtain ⟨p, hp, rfl⟩ := List.mem_map.1 hq
      by_cases hpu : (p.1 == uid) = true
      · rw [if_pos hpu] at hc
        rcases mem_setAdd hc with h | h
        · exact hasKey_dictSet_mono _ _ _ _ (hinv p hp c h)
        · subst h
          exact hasKey_dictSet_self _ _ _
      · rw [if_neg hpu] at hc
        exact hasKey_dictSet_mono _ _ _ _ (hinv p hp c hc)
  | false =>
      rw [if_neg (by rw [hs]; exact Bool.false_ne_true)] at hq
      rcases List.mem_append.1 hq with h | h
      · exact hasKey_dictSet_mono _ _ _ _ (hinv q h c hc)
      · simp only [List.mem_singleton] at h
        subst h
        simp only [List.mem_singleton] at hc
        subst hc
        exact hasKey_dictSet_self _ _ _

lemma allLive_unregister (m : ConnectionManager) (cid uid : String)
    (hinv : allLive m = true)
    (hb : ∀ p ∈ m.user_sessions, cid ∈ p.2 → p.1 = uid) :
    allLive (disconnect m cid uid) = true := by
  simp only [allLive, List.all_eq_true] at hinv ⊢
  intro q hq c hc
  have hkey : ∀ c' : String, c' ≠ cid → hasKey m.active_connections c' = true →
      hasKey (disconnect m cid uid).active_connections c' = true := by
    intro c' hne hl
    show hasKey (if hasKey m.active_connections cid then
        dictDel m.active_connections cid else m.active_connections) c' = true
    cases hk : hasKey m.active_connections cid with
    | true =>
        rw [if_pos rfl, hasKey_dictDel_other _ _ _ hne]
        exact hl
    | false =>
        rw [if_neg (fun h => Bool.false_ne_true h)]
        exact hl
  cases hs : hasKey m.user_sessions uid with
  | false =>
      have hqm : q ∈ m.user_sessions := by
        have hu : (disconnect m cid uid).user_sessions = m.user_sessions := by
          simp [disconnect, hs]
        rwa [hu] at hq
      have hcne : c ≠ cid := by
        intro he
        have hqu := hb q hqm (he ▸ hc)
        have hku : hasKey m.user_sessions uid = true := by
          rw [hasKey, List.any_eq_true]
          exact ⟨q, hqm, by simp [hqu]⟩
        rw [hs] at hku
        exact Bool.false_ne_true hku
      exact hkey c hcne (hinv q hqm c hc)
  | true =>
      have hu : (disconnect m cid uid).user_sessions
          = discardSessions cid uid m.user_sessions := by
        simp [disconnect, hs]
      rw [hu] at hq
      obtain ⟨p, hpmem, hcase⟩ := mem_discardSessions hq
      rcases hcase with ⟨hpu, hqp⟩ | ⟨hpu, hqp⟩
      · rw [hqp] at hc
        have hcne : c ≠ cid := by
          intro he
          have hqu := hb p hpmem (he ▸ hc)
          rw [hqu] at hpu
          simp at hpu
        exact hkey c hcne (hinv p hpmem c hc)
      · rw [hqp] at hc
        have hm := mem_setDiscard.1 hc
        exact hkey c hm.2 (hinv p hpmem c hm.1)

lemma allLive_step (m : ConnectionManager) (op : RegOp)
    (hinv : allLive m = true) (hb : benignOp m op) : allLive (step m op) = true := by
  cases op with
  | register ws cid uid => exact allLive_register m ws cid uid hinv
  | unregister cid uid => exact allLive_unregister m cid uid hinv hb
  | send cid ok =>
      show allLive (send_personal_message ok m cid).1 = true
      have hok : ok = true := hb
      rw [hok, send_ok_state]
      exact hinv
  | broadcast uid ok =>
      show allLive (broadcast_to_user ok m uid).1 = true
      rw [broadcast_benign_state ok m uid hb]
      exact hinv

end WSRegistry

open WSRegistry in
/-- C2 counterexample: after `register("c1","u1")` followed by a failing
`send("c1")`, the implicit-removal branch deletes the connection entry but
leaves `"c1"` in `"u1"`'s session set, so an indexed client has no live
connection — the claimed invariant does not survive a failing send. -/
theorem C2_counterexample_failing_send :
    "c1" ∈ sessionsOf (runOps [.register 0 "c1" "u1", .send "c1" false]) "u1" ∧
    hasKey (runOps [.register 0 "c1" "u1", .send "c1" false]).active_connections "c1"
      = false := by
  decide

open WSRegistry in
/-- C2 (amended): after every finite sequence of registry operations, no
user maps to an empty session set; and the full invariant — every indexed
client also has a live connection — holds additionally whenever the
sequence is benign: every channel write succeeds and every unregister names
the user its client is indexed under.  A failing send (or a mismatched
unregister) breaks the liveness half by removing the connection while the
index entry stays. -/
theorem C2_registry_invariant (ops : List WSRegistry.RegOp) :
    noEmptySets (runOps ops) = true ∧
    (benignTrace emptyManager ops → allLive (runOps ops) = true) := by
  have part1 : ∀ (rest : List RegOp) (m : ConnectionManager),
      noEmptySets m = true → noEmptySets (rest.foldl step m) = true := by
    intro rest
    induction rest with
    | nil => intro m h; exact h
    | cons op tail ih => intro m h; exact ih (step m op) (noEmpty_step m op h)
  have part2 : ∀ (rest : List RegOp) (m : ConnectionManager),
      allLive m = true → benignTrace m rest → allLive (rest.foldl step m) = true := by
    intro rest
    induction rest with
    | nil => intro m h _; exact h
    | cons op tail ih =>
        intro m h hb
        exact ih (step m op) (allLive_step m op h hb.1) hb.2
  exact ⟨part1 ops emptyManager rfl, fun hb => part2 ops emptyManager rfl hb⟩

open WSRegistry in
/-- C2 witness: a benign sequence — two registrations, one successful send,
one matched unregister — keeps both halves of the invariant. -/
theorem C2_registry_invariant_witness :
    noEmptySets (runOps [.register 0 "c1" "u1", .register 1 "c2" "u1",
        .send "c1" true, .unregister "c2" "u1"]) = true ∧
    allLive (runOps [.register 0 "c1" "u1", .register 1 "c2" "u1",
        .send "c1" true, .unregister "c2" "u1"]) = true := by
  have h := C2_registry_invariant [.register 0 "c1" "u1", .register 1 "c2" "u1",
    .send "c1" true, .unregister "c2" "u1"]
  refine ⟨h.1, h.2 ?_⟩
  refine ⟨trivial, trivial, rfl, ?_, trivial⟩
  show ∀ p ∈ (step (step (step emptyManager (RegOp.register 0 "c1" "u1"))
      (RegOp.register 1 "c2" "u1")) (RegOp.send "c1" true)).user_sessions,
    "c2" ∈ p.2 → p.1 = "u1"
  decide
